import Mathlib

/-!
Verification of the signal detection and scoring engine of the stock
dashboard (src/db.py): `detect_signals` and `compute_overall_signal`.

Numeric values are modelled as rationals (`ℚ`); a pandas field that can be
missing (NaN) is modelled as `Option ℚ`, with `pd.notna x` corresponding to
`x = some v`.  The Python dict accumulated by `detect_signals` is modelled
as an association list built in the source's insertion order, each rule
block contributing its (key, record) pair exactly when it fires.
-/

/-- Direction of one indicator signal: the `signal` field values
`BUY`, `SELL`, `NEUTRAL` of src/db.py. -/
inductive Signal where
  | BUY
  | SELL
  | NEUTRAL
deriving DecidableEq, Repr

/-- One entry of the dict built by `detect_signals`:
`{value, signal, strength, label}`. -/
structure SignalRecord where
  value : ℚ
  signal : Signal
  strength : ℕ
  label : String
deriving DecidableEq, Repr

/-- One row of `stock_prices` as consumed by `detect_signals` via
`row.get(...)` / `pd.notna(...)`: every indicator field is optional. -/
structure IndicatorRow where
  close : Option ℚ := none
  rsi_14 : Option ℚ := none
  macd : Option ℚ := none
  macd_signal : Option ℚ := none
  sma_50 : Option ℚ := none
  sma_200 : Option ℚ := none
  bb_upper : Option ℚ := none
  bb_middle : Option ℚ := none
  bb_lower : Option ℚ := none
  mfi_14 : Option ℚ := none
deriving DecidableEq, Repr

/-- The detection result: insertion-ordered key/record pairs, modelling the
Python dict `results` of `detect_signals`. -/
abbrev SignalSet := List (String × SignalRecord)

/-- Round to the nearest integer, ties to even, on the exact rational value:
models CPython's fixed-point rounding used by the `:.1f` format. -/
def roundHalfEven (q : ℚ) : ℤ :=
  let f := ⌊q⌋
  let frac := q - f
  if frac < 1/2 then f
  else if 1/2 < frac then f + 1
  else if f % 2 = 0 then f else f + 1

/-- Render a rational with one decimal digit, modelling the Python format
specifier `:.1f` used in the label f-strings of `detect_signals`. -/
def fmt1 (q : ℚ) : String :=
  let n := roundHalfEven (q * 10)
  let sign := if n < 0 then "-" else ""
  sign ++ toString (n.natAbs / 10) ++ "." ++ toString (n.natAbs % 10)

/-- The RSI block of `detect_signals`: evaluable when `rsi_14` is known. -/
def rsiSignal (row : IndicatorRow) : Option SignalRecord :=
  match row.rsi_14 with
  | none => none
  | some rsi =>
    if rsi < 30 then
      some ⟨rsi, Signal.BUY, 2, "과매도 (" ++ fmt1 rsi ++ ")"⟩
    else if rsi < 45 then
      some ⟨rsi, Signal.BUY, 1, "매수 우위 (" ++ fmt1 rsi ++ ")"⟩
    else if rsi > 70 then
      some ⟨rsi, Signal.SELL, 2, "과매수 (" ++ fmt1 rsi ++ ")"⟩
    else if rsi > 55 then
      some ⟨rsi, Signal.SELL, 1, "매도 우위 (" ++ fmt1 rsi ++ ")"⟩
    else
      some ⟨rsi, Signal.NEUTRAL, 0, "중립 (" ++ fmt1 rsi ++ ")"⟩

/-- The MACD block of `detect_signals`: evaluable when `macd` and
`macd_signal` are both known; compares `diff = macd - macd_signal` to 0. -/
def macdSignal (row : IndicatorRow) : Option SignalRecord :=
  match row.macd, row.macd_signal with
  | some macd, some macd_sig =>
    let diff := macd - macd_sig
    if diff > 0 then some ⟨diff, Signal.BUY, 1, "MACD 강세"⟩
    else if diff < 0 then some ⟨diff, Signal.SELL, 1, "MACD 약세"⟩
    else some ⟨diff, Signal.NEUTRAL, 0, "MACD 중립"⟩
  | _, _ => none

/-- The SMA-200 block of `detect_signals`: evaluable when `close` and
`sma_200` are known and `sma_200 ≠ 0`; classifies
`pct = (close - sma_200) / sma_200`. -/
def sma200Signal (row : IndicatorRow) : Option SignalRecord :=
  match row.close, row.sma_200 with
  | some close, some sma200 =>
    if sma200 ≠ 0 then
      let pct := (close - sma200) / sma200
      if pct > 5/100 then
        some ⟨pct, Signal.BUY, 2, "SMA200 +" ++ fmt1 (pct * 100) ++ "%"⟩
      else if pct > 0 then
        some ⟨pct, Signal.BUY, 1, "SMA200 +" ++ fmt1 (pct * 100) ++ "%"⟩
      else if pct < -(5/100) then
        some ⟨pct, Signal.SELL, 2, "SMA200 " ++ fmt1 (pct * 100) ++ "%"⟩
      else
        some ⟨pct, Signal.SELL, 1, "SMA200 " ++ fmt1 (pct * 100) ++ "%"⟩
    else none
  | _, _ => none

/-- The transition part of the cross block of `detect_signals`: the dict
insert guarded by the previous row and its two averages being known. -/
def crossTransition (prev_row : Option IndicatorRow) (sma50 sma200 : ℚ) :
    Option SignalRecord :=
  match prev_row with
  | none => none
  | some prev =>
    match prev.sma_50, prev.sma_200 with
    | some p50, some p200 =>
      if p50 ≤ p200 ∧ sma50 > sma200 then
        some ⟨sma50, Signal.BUY, 2, "황금십자 발생!"⟩
      else if p50 ≥ p200 ∧ sma50 < sma200 then
        some ⟨sma50, Signal.SELL, 2, "죽음십자 발생!"⟩
      else none
    | _, _ => none

/-- The golden/death cross block of `detect_signals`: evaluable when the
current `sma_50` and `sma_200` are known.  The transition test runs first
when a previous row with both averages is available; the steady-state
fallback fires only when no transition record was inserted. -/
def crossSignal (row : IndicatorRow) (prev_row : Option IndicatorRow) :
    Option SignalRecord :=
  match row.sma_50, row.sma_200 with
  | some sma50, some sma200 =>
    match crossTransition prev_row sma50 sma200 with
    | some r => some r
    | none =>
      if sma50 > sma200 then some ⟨sma50, Signal.BUY, 1, "황금십자 유지"⟩
      else some ⟨sma50, Signal.SELL, 1, "죽음십자 유지"⟩
  | _, _ => none

/-- The Bollinger-band block of `detect_signals`: evaluable when `close`,
`bb_upper`, `bb_lower`, `bb_middle` are all known. -/
def bbSignal (row : IndicatorRow) : Option SignalRecord :=
  match row.close, row.bb_upper, row.bb_lower, row.bb_middle with
  | some close, some bb_u, some bb_l, some bb_m =>
    let upper_zone := bb_m + (7/10) * (bb_u - bb_m)
    let lower_zone := bb_m - (7/10) * (bb_m - bb_l)
    if close ≥ upper_zone then some ⟨close, Signal.SELL, 1, "BB 상단 근접"⟩
    else if close ≤ lower_zone then some ⟨close, Signal.BUY, 1, "BB 하단 근접"⟩
    else some ⟨close, Signal.NEUTRAL, 0, "BB 중간 구간"⟩
  | _, _, _, _ => none

/-- The MFI block of `detect_signals`: evaluable when `mfi_14` is known. -/
def mfiSignal (row : IndicatorRow) : Option SignalRecord :=
  match row.mfi_14 with
  | none => none
  | some mfi =>
    if mfi < 20 then
      some ⟨mfi, Signal.BUY, 2, "MFI 과매도 (" ++ fmt1 mfi ++ ")"⟩
    else if mfi > 80 then
      some ⟨mfi, Signal.SELL, 2, "MFI 과매수 (" ++ fmt1 mfi ++ ")"⟩
    else
      some ⟨mfi, Signal.NEUTRAL, 0, "MFI 중립 (" ++ fmt1 mfi ++ ")"⟩

/-- `entry k v` is the contribution of one rule block to the accumulated
dict: one key/record pair when the rule fired, nothing otherwise. -/
def entry (k : String) (v : Option SignalRecord) : SignalSet :=
  match v with
  | none => []
  | some r => [(k, r)]

/-- `detect_signals(row, prev_row)` of src/db.py: each rule block runs in
source order and inserts its key exactly when evaluable. -/
def detect_signals (row : IndicatorRow)
    (prev_row : Option IndicatorRow := none) : SignalSet :=
  entry "rsi" (rsiSignal row) ++
  entry "macd" (macdSignal row) ++
  entry "sma200" (sma200Signal row) ++
  entry "cross" (crossSignal row prev_row) ++
  entry "bb" (bbSignal row) ++
  entry "mfi" (mfiSignal row)

/-- The fixed weight table `_SIGNAL_WEIGHTS` of src/db.py, in its source
order. -/
def SIGNAL_WEIGHTS : List (String × ℚ) :=
  [("rsi", 3/2), ("macd", 1), ("sma200", 3/2),
   ("cross", 2), ("bb", 1/2), ("mfi", 1)]

/-- One iteration of the scoring loop of `compute_overall_signal`:
`score += weight * strength` on BUY, `score -= weight * strength` on SELL,
no change on NEUTRAL or when the key is absent. -/
def scoreStep (signals : SignalSet) (score : ℚ) (kw : String × ℚ) : ℚ :=
  match signals.lookup kw.1 with
  | none => score
  | some s =>
    if s.signal = Signal.BUY then score + kw.2 * s.strength
    else if s.signal = Signal.SELL then score - kw.2 * s.strength
    else score

/-- `compute_overall_signal(signals)` of src/db.py: the weighted score and
the first-match label band chain. -/
def compute_overall_signal (signals : SignalSet) : String × ℚ :=
  let score := SIGNAL_WEIGHTS.foldl (scoreStep signals) 0
  if score ≥ 5 then ("강력매수", score)
  else if score ≥ 2 then ("매수", score)
  else if score ≤ -5 then ("강력매도", score)
  else if score ≤ -2 then ("매도", score)
  else ("중립", score)

/-- Modelled from the spec: the signed strength of one record, `+strength`
for BUY, `-strength` for SELL, `0` for NEUTRAL. -/
def signedStrength (s : SignalRecord) : ℚ :=
  match s.signal with
  | Signal.BUY => (s.strength : ℚ)
  | Signal.SELL => -(s.strength : ℚ)
  | Signal.NEUTRAL => 0

/-- Modelled from the spec: the contribution of one indicator key to the
score, `weight * signed_strength` when the key is present, `0` otherwise. -/
def specTerm (signals : SignalSet) (k : String) (w : ℚ) : ℚ :=
  match signals.lookup k with
  | none => 0
  | some s => w * signedStrength s

/-- Modelled from the spec: the aggregate score as the sum over the six keys
of `weight[key] * signed_strength`, with the fixed weights rsi=1.5,
macd=1.0, sma200=1.5, cross=2.0, bb=0.5, mfi=1.0. -/
def specScore (signals : SignalSet) : ℚ :=
  specTerm signals "rsi" (3/2) + specTerm signals "macd" 1 +
  specTerm signals "sma200" (3/2) + specTerm signals "cross" 2 +
  specTerm signals "bb" (1/2) + specTerm signals "mfi" 1

/-- Modelled from the spec: the label bands checked in this exact order with
first match winning. -/
def specLabel (score : ℚ) : String :=
  if score ≥ 5 then "강력매수"
  else if score ≥ 2 then "매수"
  else if score ≤ -5 then "강력매도"
  else if score ≤ -2 then "매도"
  else "중립"

/-- The golden-cross transition condition of the spec: previous values of
both averages are known, `prev.sma_50 ≤ prev.sma_200` and the current
`sma_50 > sma_200`. -/
def goldenTransition (prev : Option IndicatorRow) (a b : ℚ) : Prop :=
  ∃ p pa pb, prev = some p ∧ p.sma_50 = some pa ∧ p.sma_200 = some pb
    ∧ pa ≤ pb ∧ a > b

/-- The death-cross transition condition of the spec: previous values of
both averages are known, `prev.sma_50 ≥ prev.sma_200` and the current
`sma_50 < sma_200`. -/
def deathTransition (prev : Option IndicatorRow) (a b : ℚ) : Prop :=
  ∃ p pa pb, prev = some p ∧ p.sma_50 = some pa ∧ p.sma_200 = some pb
    ∧ pa ≥ pb ∧ a < b

/-- Record invariant: strength is at most 2 and the direction is NEUTRAL
exactly when the strength is 0. -/
def recordOK (r : SignalRecord) : Prop :=
  r.strength ≤ 2 ∧ (r.signal = Signal.NEUTRAL ↔ r.strength = 0)

/-- A row whose SMA-200 percentage deviation is exactly zero. -/
def rowC3 : IndicatorRow := { close := some 100, sma_200 := some 100 }

/-- A current row for a golden-cross transition. -/
def rowG : IndicatorRow := { sma_50 := some 101, sma_200 := some 100 }

/-- A previous row for a golden-cross transition. -/
def prevG : IndicatorRow := { sma_50 := some 95, sma_200 := some 100 }

/-- A row where only `rsi_14` is known. -/
def rowB : IndicatorRow := { rsi_14 := some 25 }

/-- A row with `rsi_14` exactly at the 30 boundary. -/
def rowR : IndicatorRow := { rsi_14 := some 30 }

/-- The record detected for `rowB`. -/
def recB : SignalRecord := ⟨25, Signal.BUY, 2, "과매도 (" ++ fmt1 25 ++ ")"⟩

/-- A NEUTRAL record of strength 0. -/
def nrec : SignalRecord := ⟨50, Signal.NEUTRAL, 0, "중립"⟩

/-- A row whose `sma_200` is known but equal to 0. -/
def row0 : IndicatorRow := { sma_200 := some 0 }

/-!
Helper lemmas about lookup, the scoring fold, and each rule block.
-/

theorem lookup_entry (k a : String) (v : Option SignalRecord) :
    (entry a v).lookup k = if k == a then v else none := by
  cases v with
  | none => simp [entry]
  | some r =>
    by_cases h : k == a
    · simp [entry, List.lookup, h]
    · simp [entry, List.lookup, h]

theorem lookup_append (k : String) (l₁ l₂ : SignalSet) :
    (l₁ ++ l₂).lookup k = ((l₁.lookup k).or (l₂.lookup k)) := by
  induction l₁ with
  | nil => simp [List.lookup]
  | cons p t ih =>
    cases p with
    | mk a v =>
      by_cases h : k == a <;> simp [List.lookup, h, ih]

theorem lookup_mem {l : SignalSet} {k : String} {v : SignalRecord}
    (h : l.lookup k = some v) : (k, v) ∈ l := by
  induction l with
  | nil => simp [List.lookup] at h
  | cons p t ih =>
    rcases p with ⟨a, b⟩
    by_cases hk : k = a
    · subst hk
      simp [List.lookup] at h
      subst h
      exact List.mem_cons_self _ _
    · have hb : (k == a) = false := beq_false_of_ne hk
      simp [List.lookup, hb] at h
      exact List.mem_cons_of_mem _ (ih h)

theorem mem_entry {p : String × SignalRecord} {k : String}
    {v : Option SignalRecord} (h : p ∈ entry k v) : p.1 = k ∧ v = some p.2 := by
  rcases v with _ | r
  · simp [entry] at h
  · simp [entry] at h
    subst h
    exact ⟨rfl, rfl⟩

theorem scoreStep_eq (signals : SignalSet) (a : ℚ) (kw : String × ℚ) :
    scoreStep signals a kw = a + specTerm signals kw.1 kw.2 := by
  unfold scoreStep specTerm
  cases h : signals.lookup kw.1 with
  | none => simp
  | some s =>
    cases hs : s.signal <;> (simp [signedStrength, hs]; try ring)

theorem foldl_scoreStep (signals : SignalSet) (l : List (String × ℚ)) (a : ℚ) :
    l.foldl (scoreStep signals) a
      = a + (l.map (fun kw => specTerm signals kw.1 kw.2)).sum := by
  induction l generalizing a with
  | nil => simp
  | cons kw t ih => simp [List.foldl, ih, scoreStep_eq]; ring

theorem compute_snd (signals : SignalSet) :
    (compute_overall_signal signals).2 = SIGNAL_WEIGHTS.foldl (scoreStep signals) 0 := by
  simp only [compute_overall_signal]
  split_ifs <;> rfl

theorem compute_fst (signals : SignalSet) :
    (compute_overall_signal signals).1
      = specLabel (SIGNAL_WEIGHTS.foldl (scoreStep signals) 0) := by
  simp only [compute_overall_signal, specLabel]
  split_ifs <;> rfl

theorem detect_lookup_rsi (row : IndicatorRow) (prev : Option IndicatorRow) :
    (detect_signals row prev).lookup "rsi" = rsiSignal row := by
  simp [detect_signals, lookup_append, lookup_entry]

theorem detect_lookup_macd (row : IndicatorRow) (prev : Option IndicatorRow) :
    (detect_signals row prev).lookup "macd" = macdSignal row := by
  simp [detect_signals, lookup_append, lookup_entry]

theorem detect_lookup_sma200 (row : IndicatorRow) (prev : Option IndicatorRow) :
    (detect_signals row prev).lookup "sma200" = sma200Signal row := by
  simp [detect_signals, lookup_append, lookup_entry]

theorem detect_lookup_cross (row : IndicatorRow) (prev : Option IndicatorRow) :
    (detect_signals row prev).lookup "cross" = crossSignal row prev := by
  simp [detect_signals, lookup_append, lookup_entry]

theorem detect_lookup_bb (row : IndicatorRow) (prev : Option IndicatorRow) :
    (detect_signals row prev).lookup "bb" = bbSignal row := by
  simp [detect_signals, lookup_append, lookup_entry]

theorem detect_lookup_mfi (row : IndicatorRow) (prev : Option IndicatorRow) :
    (detect_signals row prev).lookup "mfi" = mfiSignal row := by
  simp [detect_signals, lookup_append, lookup_entry]

theorem rsiSignal_eq (row : IndicatorRow) (r : ℚ) (h : row.rsi_14 = some r) :
    rsiSignal row =
      (if r < 30 then some ⟨r, Signal.BUY, 2, "과매도 (" ++ fmt1 r ++ ")"⟩
      else if r < 45 then some ⟨r, Signal.BUY, 1, "매수 우위 (" ++ fmt1 r ++ ")"⟩
      else if r > 70 then some ⟨r, Signal.SELL, 2, "과매수 (" ++ fmt1 r ++ ")"⟩
      else if r > 55 then some ⟨r, Signal.SELL, 1, "매도 우위 (" ++ fmt1 r ++ ")"⟩
      else some ⟨r, Signal.NEUTRAL, 0, "중립 (" ++ fmt1 r ++ ")"⟩) := by
  unfold rsiSignal
  rw [h]

theorem sma200Signal_eq (row : IndicatorRow) (c s : ℚ)
    (hc : row.close = some c) (hs : row.sma_200 = some s) :
    sma200Signal row =
      (if s ≠ 0 then
      if (c - s) / s > 5/100 then
        some ⟨(c - s) / s, Signal.BUY, 2,
          "SMA200 +" ++ fmt1 ((c - s) / s * 100) ++ "%"⟩
      else if (c - s) / s > 0 then
        some ⟨(c - s) / s, Signal.BUY, 1,
          "SMA200 +" ++ fmt1 ((c - s) / s * 100) ++ "%"⟩
      else if (c - s) / s < -(5/100) then
        some ⟨(c - s) / s, Signal.SELL, 2,
          "SMA200 " ++ fmt1 ((c - s) / s * 100) ++ "%"⟩
      else
        some ⟨(c - s) / s, Signal.SELL, 1,
          "SMA200 " ++ fmt1 ((c - s) / s * 100) ++ "%"⟩
      else none) := by
  unfold sma200Signal
  rw [hc, hs]

theorem crossTransition_golden (prev : Option IndicatorRow) (a b : ℚ)
    (h : goldenTransition prev a b) :
    crossTransition prev a b = some ⟨a, Signal.BUY, 2, "황금십자 발생!"⟩ := by
  obtain ⟨p, pa, pb, rfl, hpa, hpb, hle, hgt⟩ := h
  simp [crossTransition, hpa, hpb, hle, hgt]

theorem crossTransition_death (prev : Option IndicatorRow) (a b : ℚ)
    (h : deathTransition prev a b) :
    crossTransition prev a b = some ⟨a, Signal.SELL, 2, "죽음십자 발생!"⟩ := by
  obtain ⟨p, pa, pb, rfl, hpa, hpb, hge, hlt⟩ := h
  have hng : ¬ (b < a) := by linarith
  simp [crossTransition, hpa, hpb, hge, hlt, hng]

theorem crossTransition_none (prev : Option IndicatorRow) (a b : ℚ)
    (hg : ¬ goldenTransition prev a b) (hd : ¬ deathTransition prev a b) :
    crossTransition prev a b = none := by
  rcases prev with _ | p
  · rfl
  · rcases hpa : p.sma_50 with _ | pa <;> rcases hpb : p.sma_200 with _ | pb <;>
      simp [crossTransition, hpa, hpb]
    rw [if_neg (fun hc => hg ⟨p, pa, pb, rfl, hpa, hpb, hc.1, hc.2⟩),
      if_neg (fun hc => hd ⟨p, pa, pb, rfl, hpa, hpb, hc.1, hc.2⟩)]

theorem crossSignal_eq (row : IndicatorRow) (prev : Option IndicatorRow)
    (a b : ℚ) (h50 : row.sma_50 = some a) (h200 : row.sma_200 = some b) :
    crossSignal row prev =
      (match crossTransition prev a b with
      | some r => some r
      | none =>
        if a > b then some ⟨a, Signal.BUY, 1, "황금십자 유지"⟩
        else some ⟨a, Signal.SELL, 1, "죽음십자 유지"⟩) := by
  unfold crossSignal
  rw [h50, h200]

theorem rsiSignal_isSome (row : IndicatorRow) :
    (rsiSignal row).isSome = row.rsi_14.isSome := by
  rcases h : row.rsi_14 with _ | r
  · simp [rsiSignal, h]
  · simp only [rsiSignal, h]
    split_ifs <;> rfl

theorem macdSignal_isSome (row : IndicatorRow) :
    (macdSignal row).isSome = (row.macd.isSome && row.macd_signal.isSome) := by
  rcases h1 : row.macd with _ | m
  · simp [macdSignal, h1]
  · rcases h2 : row.macd_signal with _ | ms
    · simp [macdSignal, h1, h2]
    · simp only [macdSignal, h1, h2]
      split_ifs <;> rfl

theorem sma200Signal_isSome (row : IndicatorRow) :
    (sma200Signal row).isSome
      ↔ ∃ c s, row.close = some c ∧ row.sma_200 = some s ∧ s ≠ 0 := by
  rcases hc : row.close with _ | c
  · simp [sma200Signal, hc]
  · rcases hs : row.sma_200 with _ | s
    · simp [sma200Signal, hc, hs]
    · by_cases h0 : s ≠ 0
      · rw [sma200Signal_eq row c s hc hs, if_pos h0]
        constructor
        · intro _
          exact ⟨c, s, rfl, rfl, h0⟩
        · intro _
          split_ifs <;> rfl
      · push_neg at h0
        rw [sma200Signal_eq row c s hc hs, if_neg (by simp [h0])]
        simp [h0]

theorem crossSignal_isSome (row : IndicatorRow) (prev : Option IndicatorRow) :
    (crossSignal row prev).isSome = (row.sma_50.isSome && row.sma_200.isSome) := by
  rcases h1 : row.sma_50 with _ | a
  · simp [crossSignal, h1]
  · rcases h2 : row.sma_200 with _ | b
    · simp [crossSignal, h1, h2]
    · rw [crossSignal_eq row prev a b h1 h2]
      rcases ht : crossTransition prev a b with _ | r
      · simp only []
        split_ifs <;> rfl
      · rfl

theorem bbSignal_isSome (row : IndicatorRow) :
    (bbSignal row).isSome
      = (row.close.isSome && row.bb_upper.isSome
          && row.bb_lower.isSome && row.bb_middle.isSome) := by
  rcases h1 : row.close with _ | c
  · simp [bbSignal, h1]
  · rcases h2 : row.bb_upper with _ | u
    · simp [bbSignal, h1, h2]
    · rcases h3 : row.bb_lower with _ | l
      · simp [bbSignal, h1, h2, h3]
      · rcases h4 : row.bb_middle with _ | m
        · simp [bbSignal, h1, h2, h3, h4]
        · simp only [bbSignal, h1, h2, h3, h4]
          split_ifs <;> rfl

theorem mfiSignal_isSome (row : IndicatorRow) :
    (mfiSignal row).isSome = row.mfi_14.isSome := by
  rcases h : row.mfi_14 with _ | m
  · simp [mfiSignal, h]
  · simp only [mfiSignal, h]
    split_ifs <;> rfl

theorem rsiSignal_recordOK (row : IndicatorRow) (r : SignalRecord)
    (h : rsiSignal row = some r) : recordOK r := by
  rcases hv : row.rsi_14 with _ | v
  · simp [rsiSignal, hv] at h
  · rw [rsiSignal_eq row v hv] at h
    split_ifs at h <;> (injection h with h2; subst h2) <;> simp [recordOK]

theorem macdSignal_recordOK (row : IndicatorRow) (r : SignalRecord)
    (h : macdSignal row = some r) : recordOK r := by
  rcases h1 : row.macd with _ | m
  · simp [macdSignal, h1] at h
  · rcases h2 : row.macd_signal with _ | ms
    · simp [macdSignal, h1, h2] at h
    · simp only [macdSignal, h1, h2] at h
      split_ifs at h <;> (injection h with h3; subst h3) <;> simp [recordOK]

theorem sma200Signal_recordOK (row : IndicatorRow) (r : SignalRecord)
    (h : sma200Signal row = some r) : recordOK r := by
  rcases hc : row.close with _ | c
  · simp [sma200Signal, hc] at h
  · rcases hs : row.sma_200 with _ | s
    · simp [sma200Signal, hc, hs] at h
    · rw [sma200Signal_eq row c s hc hs] at h
      split_ifs at h <;> (injection h with h2; subst h2; simp [recordOK])

theorem crossTransition_recordOK (prev : Option IndicatorRow) (a b : ℚ)
    (r : SignalRecord) (h : crossTransition prev a b = some r) : recordOK r := by
  rcases prev with _ | p
  · simp [crossTransition] at h
  · rcases hpa : p.sma_50 with _ | pa
    · simp [crossTransition, hpa] at h
    · rcases hpb : p.sma_200 with _ | pb
      · simp [crossTransition, hpa, hpb] at h
      · simp only [crossTransition, hpa, hpb] at h
        split_ifs at h <;> (injection h with h2; subst h2; simp [recordOK])

theorem crossSignal_recordOK (row : IndicatorRow) (prev : Option IndicatorRow)
    (r : SignalRecord) (h : crossSignal row prev = some r) : recordOK r := by
  rcases h1 : row.sma_50 with _ | a
  · simp [crossSignal, h1] at h
  · rcases h2 : row.sma_200 with _ | b
    · simp [crossSignal, h1, h2] at h
    · rw [crossSignal_eq row prev a b h1 h2] at h
      rcases ht : crossTransition prev a b with _ | r2
      · simp only [ht] at h
        split_ifs at h <;> (injection h with h3; subst h3) <;> simp [recordOK]
      · simp only [ht] at h
        injection h with h3
        subst h3
        exact crossTransition_recordOK prev a b r2 ht

theorem bbSignal_recordOK (row : IndicatorRow) (r : SignalRecord)
    (h : bbSignal row = some r) : recordOK r := by
  rcases h1 : row.close with _ | c
  · simp [bbSignal, h1] at h
  · rcases h2 : row.bb_upper with _ | u
    · simp [bbSignal, h1, h2] at h
    · rcases h3 : row.bb_lower with _ | l
      · simp [bbSignal, h1, h2, h3] at h
      · rcases h4 : row.bb_middle with _ | m
        · simp [bbSignal, h1, h2, h3, h4] at h
        · simp only [bbSignal, h1, h2, h3, h4] at h
          split_ifs at h <;> (injection h with h5; subst h5) <;> simp [recordOK]

theorem mfiSignal_recordOK (row : IndicatorRow) (r : SignalRecord)
    (h : mfiSignal row = some r) : recordOK r := by
  rcases hv : row.mfi_14 with _ | v
  · simp [mfiSignal, hv] at h
  · simp only [mfiSignal, hv] at h
    split_ifs at h <;> (injection h with h2; subst h2) <;> simp [recordOK]

theorem mem_detect (row : IndicatorRow) (prev : Option IndicatorRow)
    (p : String × SignalRecord) (hp : p ∈ detect_signals row prev) :
    (p.1 = "rsi" ∧ rsiSignal row = some p.2)
    ∨ (p.1 = "macd" ∧ macdSignal row = some p.2)
    ∨ (p.1 = "sma200" ∧ sma200Signal row = some p.2)
    ∨ (p.1 = "cross" ∧ crossSignal row prev = some p.2)
    ∨ (p.1 = "bb" ∧ bbSignal row = some p.2)
    ∨ (p.1 = "mfi" ∧ mfiSignal row = some p.2) := by
  simp only [detect_signals, List.mem_append] at hp
  rcases hp with ((((h | h) | h) | h) | h) | h
  · exact Or.inl (mem_entry h)
  · exact Or.inr (Or.inl (mem_entry h))
  · exact Or.inr (Or.inr (Or.inl (mem_entry h)))
  · exact Or.inr (Or.inr (Or.inr (Or.inl (mem_entry h))))
  · exact Or.inr (Or.inr (Or.inr (Or.inr (Or.inl (mem_entry h)))))
  · exact Or.inr (Or.inr (Or.inr (Or.inr (Or.inr (mem_entry h)))))

theorem detect_recordOK (row : IndicatorRow) (prev : Option IndicatorRow)
    (p : String × SignalRecord) (hp : p ∈ detect_signals row prev) :
    recordOK p.2 := by
  rcases mem_detect row prev p hp with ⟨_, h⟩ | ⟨_, h⟩ | ⟨_, h⟩ | ⟨_, h⟩ | ⟨_, h⟩ | ⟨_, h⟩
  · exact rsiSignal_recordOK row p.2 h
  · exact macdSignal_recordOK row p.2 h
  · exact sma200Signal_recordOK row p.2 h
  · exact crossSignal_recordOK row prev p.2 h
  · exact bbSignal_recordOK row p.2 h
  · exact mfiSignal_recordOK row p.2 h

theorem detect_keys_sublist (row : IndicatorRow) (prev : Option IndicatorRow) :
    List.Sublist ((detect_signals row prev).map Prod.fst)
      ["rsi", "macd", "sma200", "cross", "bb", "mfi"] := by
  unfold detect_signals
  rcases rsiSignal row with _ | r1 <;>
    rcases macdSignal row with _ | r2 <;>
    rcases sma200Signal row with _ | r3 <;>
    rcases crossSignal row prev with _ | r4 <;>
    rcases bbSignal row with _ | r5 <;>
    rcases mfiSignal row with _ | r6 <;>
    simp [entry] <;>
    decide

theorem sma200Signal_rowC3 :
    sma200Signal rowC3 = some ⟨0, Signal.SELL, 1, "SMA200 " ++ fmt1 0 ++ "%"⟩ := by
  rw [sma200Signal_eq rowC3 100 100 rfl rfl, if_pos (by norm_num : (100:ℚ) ≠ 0)]
  norm_num

theorem signedStrength_abs_le (s : SignalRecord) (h : s.strength ≤ 2) :
    |signedStrength s| ≤ 2 := by
  have h2 : (s.strength : ℚ) ≤ 2 := by exact_mod_cast h
  have h0 : (0 : ℚ) ≤ (s.strength : ℚ) := by positivity
  unfold signedStrength
  cases s.signal
  case BUY => simpa [abs_of_nonneg h0] using h2
  case SELL => simpa [abs_neg, abs_of_nonneg h0] using h2
  case NEUTRAL => simp

theorem specTerm_abs_le (signals : SignalSet) (k : String) (w : ℚ)
    (hw : 0 ≤ w)
    (hOK : ∀ s, signals.lookup k = some s → s.strength ≤ 2) :
    |specTerm signals k w| ≤ w * 2 := by
  unfold specTerm
  rcases h : signals.lookup k with _ | s
  · simp
    positivity
  · have hb := signedStrength_abs_le s (hOK s h)
    calc |w * signedStrength s| = |w| * |signedStrength s| := abs_mul w _
    _ = w * |signedStrength s| := by rw [abs_of_nonneg hw]
    _ ≤ w * 2 := by
        apply mul_le_mul_of_nonneg_left hb hw

/-!
The claims.
-/

/-- C1: for every SignalSet, the score returned by `compute_overall_signal`
equals the sum over present keys of `weight[key] * signed_strength`, with
the fixed weights rsi=1.5, macd=1.0, sma200=1.5, cross=2.0, bb=0.5,
mfi=1.0; keys absent from the SignalSet contribute exactly zero. -/
theorem aggregate_score_spec (signals : SignalSet) :
    (compute_overall_signal signals).2 = specScore signals := by
  rw [compute_snd, foldl_scoreStep]
  simp [SIGNAL_WEIGHTS, specScore]
  ring

/-- C2: the overall label is a total function of the score via the bands
checked in this exact order with first match winning (≥5 StrongBuy,
≥2 Buy, ≤-5 StrongSell, ≤-2 Sell, else Neutral); scores exactly 5, 2,
-5, -2 map to 강력매수, 매수, 강력매도, 매도, a score of 1.999 maps to
중립, and an empty SignalSet yields score 0 and label 중립. -/
theorem overall_label_bands :
    (∀ signals : SignalSet,
      (compute_overall_signal signals).1
        = specLabel (compute_overall_signal signals).2)
    ∧ specLabel 5 = "강력매수" ∧ specLabel 2 = "매수"
    ∧ specLabel (-5) = "강력매도" ∧ specLabel (-2) = "매도"
    ∧ specLabel (1999/1000) = "중립"
    ∧ compute_overall_signal [] = ("중립", 0) := by
  refine ⟨fun signals => ?_, ?_, ?_, ?_, ?_, ?_, ?_⟩
  · rw [compute_snd]; exact compute_fst signals
  · simp [specLabel]
  · norm_num [specLabel]
  · norm_num [specLabel]
  · norm_num [specLabel]
  · norm_num [specLabel]
  · norm_num [compute_overall_signal, SIGNAL_WEIGHTS, scoreStep, List.lookup]

/-- C3 counterexample: on a row with close = 100 and sma_200 = 100 the
percentage deviation is exactly 0, the SMA200 rule is evaluable, and the
emitted record is not a BUY: the claim that pct = 0 falls into the BUY
strength-1 branch is false on the code. -/
theorem sma200_pct_zero_counterexample :
    rowC3.close = some 100 ∧ rowC3.sma_200 = some 100 ∧ (100 : ℚ) ≠ 0
    ∧ ((100 : ℚ) - 100) / 100 = 0
    ∧ ¬ (∃ r, (detect_signals rowC3 none).lookup "sma200" = some r
          ∧ r.signal = Signal.BUY) := by
  refine ⟨rfl, rfl, by norm_num, by norm_num, ?_⟩
  rw [detect_lookup_sma200, sma200Signal_rowC3]
  rintro ⟨r, hr, hsig⟩
  cases hr
  cases hsig

/-- C3 amended: for the SMA200 rule, whenever close and sma_200 are known,
sma_200 ≠ 0 and pct = (close - sma_200)/sma_200 equals exactly 0, the
emitted record for key sma200 has direction SELL and strength 1 (the rule
has no NEUTRAL outcome and the pct = 0 boundary falls into the SELL
strength-1 branch). -/
theorem sma200_pct_zero_sell (row : IndicatorRow) (prev : Option IndicatorRow)
    (c s : ℚ) (hc : row.close = some c) (hs : row.sma_200 = some s)
    (hs0 : s ≠ 0) (hp : (c - s) / s = 0) :
    (detect_signals row prev).lookup "sma200"
      = some ⟨0, Signal.SELL, 1, "SMA200 " ++ fmt1 0 ++ "%"⟩ := by
  rw [detect_lookup_sma200, sma200Signal_eq row c s hc hs, if_pos hs0]
  simp only [hp]
  norm_num

/-- Witness for C3 amended at close = 100, sma_200 = 100. -/
theorem sma200_pct_zero_sell_witness :
    (detect_signals rowC3 none).lookup "sma200"
      = some ⟨0, Signal.SELL, 1, "SMA200 " ++ fmt1 0 ++ "%"⟩ :=
  sma200_pct_zero_sell rowC3 none 100 100 rfl rfl (by norm_num) (by norm_num)

/-- C4: whenever current sma_50 and sma_200 are both known, a golden-cross
transition (previous averages known, prev.sma_50 ≤ prev.sma_200 and
current sma_50 > sma_200) yields BUY strength 2, the symmetric death
cross yields SELL strength 2, and in every other case (including missing
or incomplete previous data) the fallback applies: sma_50 > sma_200 gives
BUY strength 1, otherwise SELL strength 1; the transition is checked
first and the fallback never overrides a fired transition. -/
theorem cross_rule (row : IndicatorRow) (prev : Option IndicatorRow) (a b : ℚ)
    (h50 : row.sma_50 = some a) (h200 : row.sma_200 = some b) :
    (goldenTransition prev a b →
      (detect_signals row prev).lookup "cross"
        = some ⟨a, Signal.BUY, 2, "황금십자 발생!"⟩)
    ∧ (deathTransition prev a b →
      (detect_signals row prev).lookup "cross"
        = some ⟨a, Signal.SELL, 2, "죽음십자 발생!"⟩)
    ∧ (¬ goldenTransition prev a b → ¬ deathTransition prev a b →
      ((a > b → (detect_signals row prev).lookup "cross"
          = some ⟨a, Signal.BUY, 1, "황금십자 유지"⟩)
       ∧ (¬ a > b → (detect_signals row prev).lookup "cross"
          = some ⟨a, Signal.SELL, 1, "죽음십자 유지"⟩))) := by
  simp only [detect_lookup_cross, crossSignal_eq row prev a b h50 h200]
  refine ⟨?_, ?_, ?_⟩
  · intro h
    rw [crossTransition_golden prev a b h]
  · intro h
    rw [crossTransition_death prev a b h]
  · intro hg hd
    rw [crossTransition_none prev a b hg hd]
    exact ⟨fun h1 => by rw [if_pos h1], fun h1 => by rw [if_neg h1]⟩

/-- Witness for C4 at a golden-cross transition. -/
theorem cross_rule_witness :
    (detect_signals rowG (some prevG)).lookup "cross"
      = some ⟨101, Signal.BUY, 2, "황금십자 발생!"⟩ :=
  (cross_rule rowG (some prevG) 101 100 rfl rfl).1
    ⟨prevG, 95, 100, rfl, rfl, rfl, by norm_num, by norm_num⟩

/-- C5: whenever rsi_14 is known, rsi < 30 gives BUY strength 2,
30 ≤ rsi < 45 gives BUY strength 1 (so rsi = 30 gives strength 1, not 2),
rsi > 70 gives SELL strength 2, 55 < rsi ≤ 70 gives SELL strength 1 (so
rsi = 70 gives strength 1), and 45 ≤ rsi ≤ 55 gives NEUTRAL strength 0
(so rsi = 50 is NEUTRAL). -/
theorem rsi_rule (row : IndicatorRow) (prev : Option IndicatorRow) (r : ℚ)
    (h : row.rsi_14 = some r) :
    (r < 30 → (detect_signals row prev).lookup "rsi"
        = some ⟨r, Signal.BUY, 2, "과매도 (" ++ fmt1 r ++ ")"⟩)
    ∧ (30 ≤ r → r < 45 → (detect_signals row prev).lookup "rsi"
        = some ⟨r, Signal.BUY, 1, "매수 우위 (" ++ fmt1 r ++ ")"⟩)
    ∧ (70 < r → (detect_signals row prev).lookup "rsi"
        = some ⟨r, Signal.SELL, 2, "과매수 (" ++ fmt1 r ++ ")"⟩)
    ∧ (55 < r → r ≤ 70 → (detect_signals row prev).lookup "rsi"
        = some ⟨r, Signal.SELL, 1, "매도 우위 (" ++ fmt1 r ++ ")"⟩)
    ∧ (45 ≤ r → r ≤ 55 → (detect_signals row prev).lookup "rsi"
        = some ⟨r, Signal.NEUTRAL, 0, "중립 (" ++ fmt1 r ++ ")"⟩) := by
  simp only [detect_lookup_rsi, rsiSignal_eq row r h]
  refine ⟨?_, ?_, ?_, ?_, ?_⟩
  · intro h1
    rw [if_pos h1]
  · intro h1 h2
    rw [if_neg (by linarith), if_pos h2]
  · intro h1
    rw [if_neg (by linarith), if_neg (by linarith), if_pos h1]
  · intro h1 h2
    rw [if_neg (by linarith), if_neg (by linarith), if_neg (by linarith),
      if_pos h1]
  · intro h1 h2
    rw [if_neg (by linarith), if_neg (by linarith), if_neg (by linarith),
      if_neg (by linarith)]

/-- Witness for C5 at the rsi = 30 boundary: BUY strength 1. -/
theorem rsi_rule_witness :
    (detect_signals rowR none).lookup "rsi"
      = some ⟨30, Signal.BUY, 1, "매수 우위 (" ++ fmt1 30 ++ ")"⟩ :=
  (rsi_rule rowR none 30 rfl).2.1 (by norm_num) (by norm_num)

/-- C6: detection is total on optional fields: each of the six rule keys is
present exactly when that rule is evaluable on its required inputs
(for sma200 this includes sma_200 ≠ 0) and absent otherwise; a row where
only rsi_14 is known yields a SignalSet whose key list is exactly
[rsi], and its aggregate score is 1.5 times the signed strength of the
rsi record. -/
theorem detect_missing_fields (row : IndicatorRow) (prev : Option IndicatorRow) :
    (((detect_signals row prev).lookup "rsi").isSome = row.rsi_14.isSome)
    ∧ (((detect_signals row prev).lookup "macd").isSome
        = (row.macd.isSome && row.macd_signal.isSome))
    ∧ (((detect_signals row prev).lookup "sma200").isSome
        ↔ ∃ c s, row.close = some c ∧ row.sma_200 = some s ∧ s ≠ 0)
    ∧ (((detect_signals row prev).lookup "cross").isSome
        = (row.sma_50.isSome && row.sma_200.isSome))
    ∧ (((detect_signals row prev).lookup "bb").isSome
        = (row.close.isSome && row.bb_upper.isSome
            && row.bb_lower.isSome && row.bb_middle.isSome))
    ∧ (((detect_signals row prev).lookup "mfi").isSome = row.mfi_14.isSome)
    ∧ (∀ r, row.rsi_14 = some r → row.close = none → row.macd = none →
        row.macd_signal = none → row.sma_50 = none → row.sma_200 = none →
        row.bb_upper = none → row.bb_middle = none → row.bb_lower = none →
        row.mfi_14 = none →
        ∃ rec, (detect_signals row prev).lookup "rsi" = some rec
          ∧ (detect_signals row prev).map Prod.fst = ["rsi"]
          ∧ (compute_overall_signal (detect_signals row prev)).2
              = 3/2 * signedStrength rec) := by
  refine ⟨?_, ?_, ?_, ?_, ?_, ?_, ?_⟩
  · rw [detect_lookup_rsi]
    exact rsiSignal_isSome row
  · rw [detect_lookup_macd]
    exact macdSignal_isSome row
  · rw [detect_lookup_sma200]
    exact sma200Signal_isSome row
  · rw [detect_lookup_cross]
    exact crossSignal_isSome row prev
  · rw [detect_lookup_bb]
    exact bbSignal_isSome row
  · rw [detect_lookup_mfi]
    exact mfiSignal_isSome row
  · intro r hr hclose hmacd hmacds hs50 hs200 hbu hbm hbl hmfi
    have hrsi : ∃ rec, rsiSignal row = some rec := by
      rw [← Option.isSome_iff_exists, rsiSignal_isSome, hr]
      rfl
    obtain ⟨rec, hrec⟩ := hrsi
    have hd : detect_signals row prev = [("rsi", rec)] := by
      unfold detect_signals
      have e2 : macdSignal row = none := by simp [macdSignal, hmacd]
      have e3 : sma200Signal row = none := by simp [sma200Signal, hclose]
      have e4 : crossSignal row prev = none := by simp [crossSignal, hs50]
      have e5 : bbSignal row = none := by simp [bbSignal, hclose]
      have e6 : mfiSignal row = none := by simp [mfiSignal, hmfi]
      rw [hrec, e2, e3, e4, e5, e6]
      rfl
    refine ⟨rec, ?_, ?_, ?_⟩
    · rw [detect_lookup_rsi]
      exact hrec
    · rw [hd]
      rfl
    · rw [hd, compute_snd, foldl_scoreStep]
      simp [SIGNAL_WEIGHTS, specTerm, List.lookup]

/-- Witness for C6 on a row where only rsi_14 = 25 is known. -/
theorem detect_missing_fields_witness :
    ∃ rec, (detect_signals rowB none).lookup "rsi" = some rec
      ∧ (detect_signals rowB none).map Prod.fst = ["rsi"]
      ∧ (compute_overall_signal (detect_signals rowB none)).2
          = 3/2 * signedStrength rec :=
  (detect_missing_fields rowB none).2.2.2.2.2.2 25
    rfl rfl rfl rfl rfl rfl rfl rfl rfl rfl

/-- C7: the aggregate score of a detection result is a bounded rational (in
this rational embedding every value is finite, and the score is bounded
by 15 in absolute value); the only division performed by detection is
guarded: when sma_200 = 0 the SMA200 rule is skipped, not evaluated. -/
theorem score_guarded (row : IndicatorRow) (prev : Option IndicatorRow) :
    (row.sma_200 = some 0 → (detect_signals row prev).lookup "sma200" = none)
    ∧ |(compute_overall_signal (detect_signals row prev)).2| ≤ 15 := by
  constructor
  · intro h
    rw [detect_lookup_sma200]
    rcases hc : row.close with _ | c
    · simp [sma200Signal, hc]
    · rw [sma200Signal_eq row c 0 hc h, if_neg (by simp)]
  · have brsi : ∀ s, (detect_signals row prev).lookup "rsi" = some s →
        s.strength ≤ 2 := by
      rw [detect_lookup_rsi]
      exact fun s h => (rsiSignal_recordOK row s h).1
    have bmacd : ∀ s, (detect_signals row prev).lookup "macd" = some s →
        s.strength ≤ 2 := by
      rw [detect_lookup_macd]
      exact fun s h => (macdSignal_recordOK row s h).1
    have bsma : ∀ s, (detect_signals row prev).lookup "sma200" = some s →
        s.strength ≤ 2 := by
      rw [detect_lookup_sma200]
      exact fun s h => (sma200Signal_recordOK row s h).1
    have bcross : ∀ s, (detect_signals row prev).lookup "cross" = some s →
        s.strength ≤ 2 := by
      rw [detect_lookup_cross]
      exact fun s h => (crossSignal_recordOK row prev s h).1
    have bbb : ∀ s, (detect_signals row prev).lookup "bb" = some s →
        s.strength ≤ 2 := by
      rw [detect_lookup_bb]
      exact fun s h => (bbSignal_recordOK row s h).1
    have bmfi : ∀ s, (detect_signals row prev).lookup "mfi" = some s →
        s.strength ≤ 2 := by
      rw [detect_lookup_mfi]
      exact fun s h => (mfiSignal_recordOK row s h).1
    have t1 := specTerm_abs_le (detect_signals row prev) "rsi" (3/2)
      (by norm_num) brsi
    have t2 := specTerm_abs_le (detect_signals row prev) "macd" 1
      (by norm_num) bmacd
    have t3 := specTerm_abs_le (detect_signals row prev) "sma200" (3/2)
      (by norm_num) bsma
    have t4 := specTerm_abs_le (detect_signals row prev) "cross" 2
      (by norm_num) bcross
    have t5 := specTerm_abs_le (detect_signals row prev) "bb" (1/2)
      (by norm_num) bbb
    have t6 := specTerm_abs_le (detect_signals row prev) "mfi" 1
      (by norm_num) bmfi
    rw [compute_snd, foldl_scoreStep]
    simp only [SIGNAL_WEIGHTS, List.map, List.sum_cons, List.sum_nil]
    have habs : ∀ x y : ℚ, |x + y| ≤ |x| + |y| := fun x y => abs_add x y
    calc |0 + (specTerm (detect_signals row prev) "rsi" (3/2)
          + (specTerm (detect_signals row prev) "macd" 1
          + (specTerm (detect_signals row prev) "sma200" (3/2)
          + (specTerm (detect_signals row prev) "cross" 2
          + (specTerm (detect_signals row prev) "bb" (1/2)
          + (specTerm (detect_signals row prev) "mfi" 1 + 0))))))|
        ≤ 15 := by
          have c1 := habs (specTerm (detect_signals row prev) "mfi" 1) 0
          have c2 := habs (specTerm (detect_signals row prev) "bb" (1/2))
            (specTerm (detect_signals row prev) "mfi" 1 + 0)
          have c3 := habs (specTerm (detect_signals row prev) "cross" 2)
            (specTerm (detect_signals row prev) "bb" (1/2)
              + (specTerm (detect_signals row prev) "mfi" 1 + 0))
          have c4 := habs (specTerm (detect_signals row prev) "sma200" (3/2))
            (specTerm (detect_signals row prev) "cross" 2
              + (specTerm (detect_signals row prev) "bb" (1/2)
              + (specTerm (detect_signals row prev) "mfi" 1 + 0)))
          have c5 := habs (specTerm (detect_signals row prev) "macd" 1)
            (specTerm (detect_signals row prev) "sma200" (3/2)
              + (specTerm (detect_signals row prev) "cross" 2
              + (specTerm (detect_signals row prev) "bb" (1/2)
              + (specTerm (detect_signals row prev) "mfi" 1 + 0))))
          have c6 := habs (specTerm (detect_signals row prev) "rsi" (3/2))
            (specTerm (detect_signals row prev) "macd" 1
              + (specTerm (detect_signals row prev) "sma200" (3/2)
              + (specTerm (detect_signals row prev) "cross" 2
              + (specTerm (detect_signals row prev) "bb" (1/2)
              + (specTerm (detect_signals row prev) "mfi" 1 + 0)))))
          have z : |(0:ℚ)| = 0 := abs_zero
          rw [zero_add]
          simp only [add_zero] at c1 c2 c3 c4 c5 c6 ⊢
          linarith

/-- Witness for C7 on a row with sma_200 = 0: the sma200 key is absent. -/
theorem score_guarded_witness :
    (detect_signals row0 none).lookup "sma200" = none :=
  (score_guarded row0 none).1 rfl

/-- C8: every key of a detection result is one of rsi, macd, sma200, cross,
bb, mfi with no duplicates, every emitted record has direction BUY, SELL
or NEUTRAL and strength at most 2, and the overall label is always one of
the five values 강력매수, 매수, 중립, 매도, 강력매도. -/
theorem detect_invariants (row : IndicatorRow) (prev : Option IndicatorRow)
    (signals : SignalSet) :
    ((detect_signals row prev).map Prod.fst).Nodup
    ∧ (∀ p ∈ detect_signals row prev,
        p.1 ∈ (["rsi", "macd", "sma200", "cross", "bb", "mfi"] : List String)
        ∧ (p.2.signal = Signal.BUY ∨ p.2.signal = Signal.SELL
            ∨ p.2.signal = Signal.NEUTRAL)
        ∧ p.2.strength ≤ 2)
    ∧ (compute_overall_signal signals).1
        ∈ (["강력매수", "매수", "중립", "매도", "강력매도"] : List String) := by
  refine ⟨?_, ?_, ?_⟩
  · exact (detect_keys_sublist row prev).nodup (by decide)
  · intro p hp
    refine ⟨?_, ?_, (detect_recordOK row prev p hp).1⟩
    · exact (detect_keys_sublist row prev).subset
        (List.mem_map_of_mem Prod.fst hp)
    · cases h : p.2.signal <;> simp
  · rw [compute_fst]
    unfold specLabel
    split_ifs <;> simp

/-- Witness for C8 on the record detected for rowB. -/
theorem detect_invariants_witness :
    ("rsi", recB).1 ∈ (["rsi", "macd", "sma200", "cross", "bb", "mfi"] : List String)
    ∧ (("rsi", recB).2.signal = Signal.BUY ∨ ("rsi", recB).2.signal = Signal.SELL
        ∨ ("rsi", recB).2.signal = Signal.NEUTRAL)
    ∧ ("rsi", recB).2.strength ≤ 2 :=
  (detect_invariants rowB none []).2.1 ("rsi", recB)
    (lookup_mem (by
      rw [detect_lookup_rsi, rsiSignal_eq rowB 25 rfl,
        if_pos (by norm_num : (25:ℚ) < 30)]
      rfl))

/-- C9: detection and aggregation are deterministic pure functions: two runs
on identical inputs produce identical SignalSets and identical
(label, score) pairs; in this embedding both are closed functions of
their arguments, reading no outside state. -/
theorem detect_aggregate_deterministic (row1 row2 : IndicatorRow)
    (prev1 prev2 : Option IndicatorRow) (hr : row1 = row2)
    (hp : prev1 = prev2) :
    detect_signals row1 prev1 = detect_signals row2 prev2
    ∧ compute_overall_signal (detect_signals row1 prev1)
        = compute_overall_signal (detect_signals row2 prev2) := by
  subst hr
  subst hp
  exact ⟨rfl, rfl⟩

/-- Witness for C9 on rowB. -/
theorem detect_aggregate_deterministic_witness :
    detect_signals rowB none = detect_signals rowB none
    ∧ compute_overall_signal (detect_signals rowB none)
        = compute_overall_signal (detect_signals rowB none) :=
  detect_aggregate_deterministic rowB rowB none none rfl rfl

/-- C10: every record emitted by detection has direction NEUTRAL exactly
when its strength is 0, and a NEUTRAL record contributes nothing to the
aggregate score loop. -/
theorem neutral_iff_strength_zero (row : IndicatorRow)
    (prev : Option IndicatorRow) :
    (∀ p ∈ detect_signals row prev,
      (p.2.signal = Signal.NEUTRAL ↔ p.2.strength = 0))
    ∧ (∀ (signals : SignalSet) (acc : ℚ) (kw : String × ℚ) (s : SignalRecord),
        signals.lookup kw.1 = some s → s.signal = Signal.NEUTRAL →
        scoreStep signals acc kw = acc) := by
  constructor
  · intro p hp
    exact (detect_recordOK row prev p hp).2
  · intro signals acc kw s h hn
    simp [scoreStep, h, hn]

/-- Witness for C10 on a BUY record of rowB and a NEUTRAL scoring step. -/
theorem neutral_iff_strength_zero_witness :
    (recB.signal = Signal.NEUTRAL ↔ recB.strength = 0)
    ∧ scoreStep [("rsi", nrec)] 7 ("rsi", 3/2) = 7 :=
  ⟨(neutral_iff_strength_zero rowB none).1 ("rsi", recB)
      (lookup_mem (by
        rw [detect_lookup_rsi, rsiSignal_eq rowB 25 rfl,
          if_pos (by norm_num : (25:ℚ) < 30)]
        rfl)),
   (neutral_iff_strength_zero rowB none).2 [("rsi", nrec)] 7 ("rsi", 3/2)
      nrec rfl rfl⟩
